import Mathlib

/-!
Verification of the hybrid-retrieval backend (`backend/ir_core.py`,
`backend/indexer.py`, `backend/app.py`).

The Python code is shallowly embedded: pure fragments become Lean functions,
the process-wide geocode cache becomes explicit state passing, and the external
collaborators (the OpenSearch index, the embedding model, the geopy geodesic
distance, the Nominatim geocoder, and the float `10 ** x` operation) become
oracle parameters.  Scores are modelled as exact rationals (`ℚ`); every Python
float literal appearing in the source (`2.5`, `0.02`, `0.5`, `0.1`, `0.7`,
coordinates, …) is exactly representable.  All definitions are executable by
structural recursion so closed statements evaluate.
-/

set_option maxHeartbeats 1000000
set_option maxRecDepth 2000

/-! ## Python string primitives

The backend only ever manipulates ASCII text (Reuters-21578 corpus, ISO dates,
place names).  We model `str.lower`, `str.split()`, `str.strip`, `str.replace`
and substring containment directly over the character list of a `String`,
by structural recursion. -/

/-- Python `str.lower`, restricted to ASCII letters (the only case the corpus
and the queries exercise). -/
def lower_char (c : Char) : Char :=
  if 'A' ≤ c ∧ c ≤ 'Z' then Char.ofNat (c.toNat + 32) else c

/-- The whitespace characters Python `str.split()` and `str.strip()` use
(ASCII subset). -/
def is_ws (c : Char) : Bool :=
  c = ' ' || c = '\t' || c = '\n' || c = '\r' || c = '\x0b' || c = '\x0c'

/-- Python `str.lower` over a whole string. -/
def py_lower (s : String) : String :=
  ⟨s.data.map lower_char⟩

/-- Helper for `py_split_ws`: split a character list on runs of whitespace,
dropping empty pieces, accumulating the current word reversed. -/
def words_aux : List Char → List Char → List (List Char)
  | [], acc => if acc = [] then [] else [acc.reverse]
  | c :: cs, acc =>
    if is_ws c then
      (if acc = [] then words_aux cs [] else acc.reverse :: words_aux cs [])
    else words_aux cs (c :: acc)

/-- Python `s.split()` (no separator argument): split on runs of whitespace,
empty pieces discarded. -/
def py_split_ws (s : String) : List String :=
  (words_aux s.data []).map String.mk

/-- Python `s.lower().split()`, the tokenization `smart_hybrid_search` applies
to the query text and to document titles (ir_core.py lines 216 and 224). -/
def py_lower_split (s : String) : List String :=
  py_split_ws (py_lower s)

/-- Python `str.strip()` (no argument): remove leading and trailing
whitespace. -/
def py_strip (s : String) : String :=
  ⟨((s.data.dropWhile is_ws).reverse.dropWhile is_ws).reverse⟩

/-- Does `pat` occur at the head of `l`? -/
def leads_with : List Char → List Char → Bool
  | [], _ => true
  | _ :: _, [] => false
  | p :: ps, c :: cs => p = c && leads_with ps cs

/-- Helper for `py_replace`; the fuel argument is the length of the subject
string, enough because every step consumes at least one character. -/
def replace_aux (pat rep : List Char) : Nat → List Char → List Char
  | 0, l => l
  | _ + 1, [] => []
  | fuel + 1, c :: cs =>
    if pat ≠ [] ∧ leads_with pat (c :: cs) then
      rep ++ replace_aux pat rep fuel (List.drop (pat.length - 1) cs)
    else
      c :: replace_aux pat rep fuel cs

/-- Python `s.replace(pat, rep)` for a non-empty pattern, replacing every
non-overlapping occurrence left to right (the code only uses it as
`date_str.replace("Z", "")`). -/
def py_replace (s pat rep : String) : String :=
  ⟨replace_aux pat.data rep.data s.data.length s.data⟩

/-- Python `pat in s` substring containment (used by the `"usa" in g.lower()`
fallback in ir_core.py line 148). -/
def py_contains_sub (s pat : String) : Bool :=
  go pat.data s.data
where
  go (p : List Char) : List Char → Bool
    | [] => leads_with p []
    | c :: cs => leads_with p (c :: cs) || go p cs

/-- `len(set(q) & set(t))`: the number of distinct elements of `q` that occur
in `t` (both loops in the re-ranker count matches this way). -/
def inter_count (q t : List String) : Nat :=
  (q.dedup.filter (fun w => w ∈ t)).length

/-! ## Python dates

`datetime.date` / midnight `datetime` values are modelled as a
year/month/day triple of integers; a full `datetime` adds a seconds-of-day
component.  Calendar arithmetic uses the standard civil-from-days /
days-from-civil conversions (proleptic Gregorian calendar, the one Python's
`datetime` implements).  Python's `//` is floor division, i.e. `Int.fdiv`. -/

structure PyDate where
  year : Int
  month : Int
  day : Int
  deriving DecidableEq, Repr

structure PyDateTime where
  date : PyDate
  secs : Int
  deriving DecidableEq, Repr

/-- Gregorian leap-year test. -/
def is_leap_year (y : Int) : Bool :=
  (Int.fmod y 4 = 0 && Int.fmod y 100 ≠ 0) || Int.fmod y 400 = 0

/-- Length of month `m` of year `y`. -/
def days_in_month (y m : Int) : Int :=
  if m = 2 then (if is_leap_year y then 29 else 28)
  else if m = 4 ∨ m = 6 ∨ m = 9 ∨ m = 11 then 30
  else 31

/-- Days since 1970-01-01 of a civil date (standard conversion). -/
def days_from_civil (y m d : Int) : Int :=
  let y' := if m ≤ 2 then y - 1 else y
  let era := Int.fdiv y' 400
  let yoe := y' - era * 400
  let mp := if 2 < m then m - 3 else m + 9
  let doy := Int.fdiv (153 * mp + 2) 5 + d - 1
  let doe := yoe * 365 + Int.fdiv yoe 4 - Int.fdiv yoe 100 + doy
  era * 146097 + doe - 719468

/-- Inverse of `days_from_civil` (standard conversion). -/
def civil_from_days (z : Int) : PyDate :=
  let z' := z + 719468
  let era := Int.fdiv z' 146097
  let doe := z' - era * 146097
  let yoe := Int.fdiv (doe - Int.fdiv doe 1460 + Int.fdiv doe 36524 - Int.fdiv doe 146096) 365
  let y := yoe + era * 400
  let doy := doe - (365 * yoe + Int.fdiv yoe 4 - Int.fdiv yoe 100)
  let mp := Int.fdiv (5 * doy + 2) 153
  let d := doy - Int.fdiv (153 * mp + 2) 5 + 1
  let m := if mp < 10 then mp + 3 else mp - 9
  ⟨if m ≤ 2 then y + 1 else y, m, d⟩

/-- Ordinal (days since 1970-01-01) of a `PyDate`. -/
def py_date_ord (d : PyDate) : Int :=
  days_from_civil d.year d.month d.day

/-- Shift a date by a number of days. -/
def date_add_days (d : PyDate) (n : Int) : PyDate :=
  civil_from_days (py_date_ord d + n)

/-- Strict order on dates (what Python's `date.__lt__` computes). -/
def py_date_lt (a b : PyDate) : Bool :=
  a.year < b.year ||
    (a.year = b.year && (a.month < b.month ||
      (a.month = b.month && a.day < b.day)))

/-- Python `timedelta`, already normalized: `timedelta(days=1)` is `⟨1, 0⟩`
and `timedelta(seconds=1)` is `⟨0, 1⟩`. -/
structure PyTimedelta where
  days : Int
  seconds : Int
  deriving DecidableEq, Repr

/-- Python `date + timedelta`: by the documented semantics of
`datetime.date`, only the `days` component of the delta is used —
`timedelta.seconds` and `timedelta.microseconds` are ignored. -/
def date_add_td (d : PyDate) (t : PyTimedelta) : PyDate :=
  date_add_days d t.days

/-- Python `date - timedelta`: `date.__sub__` computes
`self + timedelta(-other.days)`, again ignoring the seconds component.
In particular subtracting `timedelta(seconds=1)` from a `date` is the
identity. -/
def date_sub_td (d : PyDate) (t : PyTimedelta) : PyDate :=
  date_add_days d (-t.days)

/-- Seconds since the epoch of a (timezone-naive) `datetime`. -/
def dt_total_secs (dt : PyDateTime) : Int :=
  py_date_ord dt.date * 86400 + dt.secs

/-- `(a - b).days` for two Python `datetime`s: the `days` component of the
normalized `timedelta`, i.e. the floor of the difference in days. -/
def dt_sub_days (a b : PyDateTime) : Int :=
  Int.fdiv (dt_total_secs a - dt_total_secs b) 86400

/-! ## ISO date parsing

A model of `datetime.fromisoformat` restricted to the shapes the system
produces and consumes: `YYYY-MM-DD`, optionally followed by `'T'` or `' '`
and `HH:MM:SS`.  Anything else is a parse failure (`ValueError` in Python,
`none` here). -/

/-- Decimal digit value of a character. -/
def dch (c : Char) : Option Nat :=
  if '0' ≤ c ∧ c ≤ '9' then some (c.toNat - 48) else none

/-- Parse exactly `YYYY-MM-DD` (ten characters), validating the month and
day ranges as `date.fromisoformat` does. -/
def parse_iso_date_chars : List Char → Option PyDate
  | [y1, y2, y3, y4, s1, m1, m2, s2, d1, d2] => do
    let a ← dch y1
    let b ← dch y2
    let c ← dch y3
    let d ← dch y4
    guard (s1 = '-' ∧ s2 = '-')
    let e ← dch m1
    let f ← dch m2
    let g ← dch d1
    let h ← dch d2
    let y : Int := a * 1000 + b * 100 + c * 10 + d
    let mo : Int := e * 10 + f
    let dy : Int := g * 10 + h
    if 1 ≤ mo ∧ mo ≤ 12 ∧ 1 ≤ dy ∧ dy ≤ days_in_month y mo then
      some ⟨y, mo, dy⟩
    else none
  | _ => none

/-- Model of `date`-valued `datetime.fromisoformat(s)` where the caller has
already cut the string at `'T'` (`to_datetime` in ir_core.py line 115). -/
def parse_iso_date (s : String) : Option PyDate :=
  parse_iso_date_chars s.data

/-- Model of `datetime.fromisoformat` on a full timestamp: the date part,
optionally followed by `'T'` or `' '` and `HH:MM:SS`. -/
def parse_iso_datetime_chars (cs : List Char) : Option PyDateTime := do
  let d ← parse_iso_date_chars (cs.take 10)
  match cs.drop 10 with
  | [] => some ⟨d, 0⟩
  | sep :: t =>
    if sep = 'T' ∨ sep = ' ' then
      match t with
      | [h1, h2, c1, mi1, mi2, c2, s1, s2] => do
        let a ← dch h1
        let b ← dch h2
        guard (c1 = ':' ∧ c2 = ':')
        let c ← dch mi1
        let d2 ← dch mi2
        let e ← dch s1
        let f ← dch s2
        let hh : Int := a * 10 + b
        let mm : Int := c * 10 + d2
        let ss : Int := e * 10 + f
        if hh ≤ 23 ∧ mm ≤ 59 ∧ ss ≤ 59 then
          some ⟨d, hh * 3600 + mm * 60 + ss⟩
        else none
      | _ => none
    else none

/-- String version of `parse_iso_datetime_chars`. -/
def parse_iso_datetime (s : String) : Option PyDateTime :=
  parse_iso_datetime_chars s.data

/-! ## Python `round(x, 3)`

`round` uses round-half-to-even.  The presentation step
(`hit["_score"] = round(final_score, 3)`, ir_core.py line 254) rounds the
final score to three decimal digits. -/

/-- Round a rational to the nearest integer, ties to even. -/
def round_half_even (q : ℚ) : Int :=
  let f := ⌊q⌋
  let r := q - (f : ℚ)
  if r < 1 / 2 then f
  else if 1 / 2 < r then f + 1
  else if Int.emod f 2 = 0 then f else f + 1

/-- Python `round(q, 3)`. -/
def py_round3 (q : ℚ) : ℚ :=
  (round_half_even (q * 1000) : ℚ) / 1000

/-! ## Association lists as Python dicts

Python dicts preserve insertion order; assignment to an existing key keeps
its position, assignment to a fresh key appends.  `candidates` in
`smart_hybrid_search` and `GEO_CACHE` in indexer.py are modelled this way. -/

/-- Lookup in a Python dict. -/
def dget {α : Type} : List (String × α) → String → Option α
  | [], _ => none
  | (k, v) :: t, key => if k = key then some v else dget t key

/-- Assignment `m[key] = v` in a Python dict. -/
def dset {α : Type} : List (String × α) → String → α → List (String × α)
  | [], key, v => [(key, v)]
  | (k, v') :: t, key, v =>
    if k = key then (k, v) :: t else (k, v') :: dset t key v

/-! ## GeoResolver: `geocode_cached` (indexer.py lines 37–79)

The Nominatim geocoder is an external collaborator; each remote attempt is
an oracle value.  `GEO_CACHE` is the process-wide dict from normalized place
name to a positive result or an explicit negative (`None`, modelled as the
cached value `none`).  The embedding additionally returns the number of
remote calls issued, which the Python code performs as a side effect. -/

/-- The fields of a positive geocoding result that the core reads
(`loc["lat"]`, `loc["lon"]`; the remaining metadata fields are irrelevant
to every claim). -/
structure Loc where
  lat : ℚ
  lon : ℚ
  deriving DecidableEq, Repr

/-- One remote `geolocator.geocode` attempt: a location, a `None` answer, a
transient failure (`GeocoderTimedOut` / `GeocoderUnavailable`, retried after
a sleep), or any other exception (logged, aborts the loop). -/
inductive GeoOutcome where
  | found (loc : Loc)
  | notFound
  | transient
  | permanent
  deriving DecidableEq

/-- The `GEO_CACHE` dict: cached value `none` is the negative marker. -/
abbrev GeoCache : Type := List (String × Option Loc)

/-- The `for _ in range(retries)` loop of `geocode_cached`: `found` stores the
result and breaks, `notFound` and `transient` continue, any other exception
breaks with no result.  Returns the result together with the number of remote
calls issued; the second argument is the index of the next attempt. -/
def geo_retry_loop (remote : Nat → GeoOutcome) : Nat → Nat → Option Loc × Nat
  | 0, _ => (none, 0)
  | fuel + 1, i =>
    match remote i with
    | .found loc => (some loc, 1)
    | .notFound =>
      let r := geo_retry_loop remote fuel (i + 1)
      (r.1, r.2 + 1)
    | .transient =>
      let r := geo_retry_loop remote fuel (i + 1)
      (r.1, r.2 + 1)
    | .permanent => (none, 1)

/-- `geocode_cached(name, retries=3)` (indexer.py lines 50–79), with the cache
passed explicitly and the remote call count instrumented.  Empty `name` is
falsy and returns `None` immediately; the cache key is
`name.lower().strip()`; on a hit the cached value (positive or negative) is
returned with no remote call; on a miss the retry loop runs and its result —
even `None` — is stored under the key. -/
def geocode_cached (cache : GeoCache) (remote : Nat → GeoOutcome)
    (name : String) (retries : Nat := 3) : Option Loc × GeoCache × Nat :=
  if name = "" then (none, cache, 0)
  else
    let key := py_strip (py_lower name)
    match dget cache key with
    | some v => (v, cache, 0)
    | none =>
      let r := geo_retry_loop remote retries 0
      (r.1, dset cache key r.1, r.2)

/-! ## Python `float(...)` on coordinate strings

`smart_hybrid_search` parses a `"lat,lon"` georeference with
`map(float, g.split(","))` inside a `try`.  We model `float` on the decimal
forms that a coordinate string can take: optional surrounding whitespace,
optional sign, digits with an optional fractional part.  Other inputs
(including the empty string) fail, which in Python raises `ValueError` and
lands in the `except: pass`. -/

/-- Digits to a natural number accumulator; fails on a non-digit. -/
def digits_val : List Char → Nat → Option Nat
  | [], acc => some acc
  | c :: cs, acc => do
    let d ← dch c
    digits_val cs (acc * 10 + d)

/-- `float(s)` on plain decimal forms `[±]digits[.digits]`, `[±].digits`,
`[±]digits.` with surrounding whitespace allowed. -/
def py_float (s : String) : Option ℚ :=
  let cs := (py_strip s).data
  let (sign, body) :=
    match cs with
    | '-' :: t => ((-1 : ℚ), t)
    | '+' :: t => ((1 : ℚ), t)
    | t => ((1 : ℚ), t)
  let intPart := body.takeWhile (fun c => c ≠ '.')
  let rest := body.dropWhile (fun c => c ≠ '.')
  match rest with
  | [] => do
    let n ← digits_val intPart 0
    if intPart = [] then none else some (sign * n)
  | _ :: frac => do
    let n ← digits_val intPart 0
    let f ← digits_val frac 0
    if intPart = [] ∧ frac = [] then none
    else some (sign * ((n : ℚ) + (f : ℚ) / (10 : ℚ) ^ frac.length))

/-- Python `g.split(",")` (splits at every comma, keeping empty pieces). -/
def py_split_comma (s : String) : List String :=
  go s.data [] |>.map String.mk
where
  go : List Char → List Char → List (List Char)
    | [], acc => [acc.reverse]
    | c :: cs, acc =>
      if c = ',' then acc.reverse :: go cs [] else go cs (c :: acc)

/-- `lat, lon = map(float, g.split(","))`: succeeds only when the split has
exactly two pieces and both parse as floats; any failure is swallowed by the
`except: pass` (modelled as `none`). -/
def parse_two_floats (g : String) : Option (ℚ × ℚ) :=
  match py_split_comma g with
  | [a, b] => do
    let la ← py_float a
    let lo ← py_float b
    some (la, lo)
  | _ => none

/-! ## The document / hit / candidate data model (ir_core.py) -/

/-- The representative coordinate stored on a document
(`source["geopoint"]` with `lat` / `lon` keys). -/
structure GeoPt where
  lat : ℚ
  lon : ℚ
  deriving DecidableEq, Repr

/-- The `_source` fields of an indexed document that `smart_hybrid_search`
reads.  Absent fields are `none` (`source.get(...)` then yields the default). -/
structure Source where
  title : Option String
  content : Option String
  date : Option String
  geopoint : Option GeoPt
  deriving DecidableEq, Repr

/-- One index hit: `hit["_id"]`, `hit["_source"]`, `hit["_score"]`. -/
structure Hit where
  id : String
  source : Source
  score : ℚ
  deriving DecidableEq, Repr

/-- One entry of the `candidates` dict built by the fusion step
(ir_core.py lines 174–212): the originating hit, its source, the running
combined base score, and the two partial scores. -/
structure Cand where
  hit : Hit
  source : Source
  score : ℚ
  lexical_score : ℚ
  semantic_score : ℚ
  deriving DecidableEq, Repr

/-- The `candidates` dict, keyed by document id, in insertion order. -/
abbrev CandMap : Type := List (String × Cand)

/-- The candidate created for a lexical hit (ir_core.py lines 175–183). -/
def lex_candidate (hit : Hit) : Cand :=
  { hit := hit, source := hit.source, score := hit.score,
    lexical_score := hit.score, semantic_score := 0 }

/-- The candidate created for a semantic hit with no lexical counterpart
(ir_core.py lines 205–212). -/
def sem_candidate (hit : Hit) : Cand :=
  { hit := hit, source := hit.source, score := hit.score,
    lexical_score := 0, semantic_score := hit.score }

/-- Merging a semantic hit into an existing candidate (ir_core.py lines
202–204): set `semantic_score`, add the semantic score to the running
combined score. -/
def sem_merge (c : Cand) (hit : Hit) : Cand :=
  { c with semantic_score := hit.score, score := c.score + hit.score }

/-- The date filter applied to each semantic hit (ir_core.py lines 186–199):
with an active date range, a hit with a missing or empty date string is
dropped, an unparseable date is dropped (`except: continue`), and a parsed
date strictly before `start` or strictly after `end` is dropped. -/
def sem_keep (start? end? : Option PyDate) (src : Source) : Bool :=
  let rangeActive := start?.isSome || end?.isSome
  let dateStr := src.date.getD ""
  if rangeActive && dateStr ≠ "" then
    match parse_iso_datetime (py_replace dateStr "Z" "") with
    | none => false
    | some dt =>
      if start?.any (fun st => py_date_lt dt.date st) then false
      else if end?.any (fun en => py_date_lt en dt.date) then false
      else true
  else if rangeActive && dateStr = "" then false
  else true

/-- Processing one semantic hit (ir_core.py lines 185–212). -/
def sem_step (start? end? : Option PyDate) (m : CandMap) (hit : Hit) : CandMap :=
  if sem_keep start? end? hit.source then
    match dget m hit.id with
    | some c => dset m hit.id (sem_merge c hit)
    | none => dset m hit.id (sem_candidate hit)
  else m

/-- Candidate fusion (ir_core.py lines 173–212): every lexical hit becomes a
candidate keyed by its id, then every (date-filtered) semantic hit either
merges into the existing candidate or creates a new one. -/
def combine_candidates (lex sem : List Hit) (start? end? : Option PyDate) : CandMap :=
  sem.foldl (sem_step start? end?) (lex.foldl (fun m h => dset m h.id (lex_candidate h)) [])

/-! ## Re-ranking (ir_core.py lines 214–249)

The reference time is the fixed corpus anchor `datetime(1987, 12, 31)`.
The geopy geodesic distance and the float `10 ** x` operation are oracle
parameters (`geodesic_km` returns `none` when the library call raises, which
the code swallows with `except: pass`). -/

/-- `now = datetime(1987, 12, 31)` (ir_core.py line 215). -/
def corpus_now : PyDateTime := ⟨⟨1987, 12, 31⟩, 0⟩

/-- The title boost factor: `(1 + matches * 2.5)` when at least one distinct
query term occurs in the title, otherwise no boost (ir_core.py lines
223–227). -/
def title_factor (m : Nat) : ℚ :=
  if 0 < m then 1 + (m : ℚ) * (5 / 2) else 1

/-- The recency factor as a function of `months_old`:
`max(0.5, 1 - months_old * 0.02)` (ir_core.py line 235). -/
def recency_factor_months (mo : Int) : ℚ :=
  max (1 / 2) (1 - (mo : ℚ) * (1 / 50))

/-- `months_old = max(0, (now - doc_date).days // 30)` (ir_core.py line
234). -/
def months_old (dt : PyDateTime) : Int :=
  max 0 (Int.fdiv (dt_sub_days corpus_now dt) 30)

/-- The recency factor actually applied to a candidate (ir_core.py lines
229–237): missing or empty date strings and unparseable dates leave the
score untouched (`except: pass`), i.e. contribute a factor of `1`. -/
def recency_factor (src : Source) : ℚ :=
  let dateStr := src.date.getD ""
  if dateStr ≠ "" then
    match parse_iso_datetime (py_replace dateStr "Z" "") with
    | some dt => recency_factor_months (months_old dt)
    | none => 1
  else 1

/-- The geo proximity factor as a function of the distance in kilometers:
`max(0.1, 10 ** (-dist / 10000))` (ir_core.py line 245), with the float power
operation abstracted as `ten_pow`. -/
def geo_factor_dist (ten_pow : ℚ → ℚ) (dist : ℚ) : ℚ :=
  max (1 / 10) (ten_pow (-dist / 10000))

/-- The geo proximity factor actually applied to a candidate (ir_core.py
lines 239–247): it requires a resolved query point, a geopoint whose `lat`
and `lon` are both truthy (present and nonzero — the `{lat: 0, lon: 0}`
default of unresolved documents is skipped), and a geodesic call that does
not raise; otherwise the score is untouched. -/
def geo_factor (query_point : Option (ℚ × ℚ))
    (geodesic_km : ℚ × ℚ → ℚ × ℚ → Option ℚ) (ten_pow : ℚ → ℚ)
    (src : Source) : ℚ :=
  match query_point with
  | none => 1
  | some qp =>
    match src.geopoint with
    | none => 1
    | some gp =>
      if gp.lat ≠ 0 ∧ gp.lon ≠ 0 then
        match geodesic_km qp (gp.lat, gp.lon) with
        | some dist => geo_factor_dist ten_pow dist
        | none => 1
      else 1

/-- The body of the re-ranking loop for one candidate (ir_core.py lines
219–248), translated branch by branch: start from the fused base score,
apply the title boost, then the recency boost, then the geo proximity
boost. -/
def score_candidate (query_words : List String) (query_point : Option (ℚ × ℚ))
    (geodesic_km : ℚ × ℚ → ℚ × ℚ → Option ℚ) (ten_pow : ℚ → ℚ)
    (info : Cand) : ℚ :=
  let source := info.source
  let s0 := info.score
  let title_words := py_lower_split (source.title.getD "")
  let nmatch := inter_count query_words title_words
  let s1 := if 0 < nmatch then s0 * (1 + (nmatch : ℚ) * (5 / 2)) else s0
  let dateStr := source.date.getD ""
  let s2 :=
    if dateStr ≠ "" then
      match parse_iso_datetime (py_replace dateStr "Z" "") with
      | some dt => s1 * recency_factor_months (months_old dt)
      | none => s1
    else s1
  match query_point with
  | none => s2
  | some qp =>
    match source.geopoint with
    | none => s2
    | some gp =>
      if gp.lat ≠ 0 ∧ gp.lon ≠ 0 then
        match geodesic_km qp (gp.lat, gp.lon) with
        | some dist => s2 * geo_factor_dist ten_pow dist
        | none => s2
      else s2

/-- The re-ranking loop (ir_core.py lines 218–249): each candidate of the
dict, in insertion order, is scored independently and paired with its
originating hit. -/
def rerank (query_words : List String) (query_point : Option (ℚ × ℚ))
    (geodesic_km : ℚ × ℚ → ℚ × ℚ → Option ℚ) (ten_pow : ℚ → ℚ)
    (m : CandMap) : List (Hit × ℚ) :=
  m.map (fun p => (p.2.hit, score_candidate query_words query_point geodesic_km ten_pow p.2))

/-! ## Sorting and presentation (ir_core.py lines 251–256)

`ranked.sort(key=lambda x: x[1], reverse=True)` is Python's stable sort in
descending score order; we implement the (unique) stable descending sort by
insertion. -/

/-- Insert an element into a descending-sorted list, after every element
with a greater-or-equal score (so that earlier elements win ties, as in a
stable sort). -/
def insert_desc (x : Hit × ℚ) : List (Hit × ℚ) → List (Hit × ℚ)
  | [] => [x]
  | y :: ys => if y.2 ≤ x.2 ∧ ¬ x.2 ≤ y.2 then x :: y :: ys else y :: insert_desc x ys

/-- Stable descending sort by score. -/
def sort_desc : List (Hit × ℚ) → List (Hit × ℚ)
  | [] => []
  | x :: xs => insert_desc x (sort_desc xs)

/-- The presentation step (ir_core.py lines 251–256): sort descending by
final score, keep the top `size` hits, and overwrite each hit's `_score`
with the final score rounded to three decimals («Show real hybrid score»).
No rescaling of any kind is applied. -/
def present (ranked : List (Hit × ℚ)) (size : Nat) : List Hit :=
  ((sort_desc ranked).take size).map (fun p => { p.1 with score := py_round3 p.2 })

/-! ## The `smart_hybrid_search` entry point (ir_core.py lines 92–256)

The OpenSearch client and the embedding model are external collaborators:
the two `client.search` responses and the retry-oracle of the geocoder are
inputs, and the embedding of the query never influences anything observable
beyond the semantic response itself.  The embedding instruments the number
of index searches, embedding calls and remote geocoding calls issued, so
that claims about «no retrieval / no remote call» are statements about the
returned counts. -/

/-- The single error the modelled paths can raise: `ValueError`, from the
tuple-shape guard or from `datetime.fromisoformat` on a malformed date
string. -/
inductive PyErr where
  | valueError
  deriving DecidableEq, Repr

/-- The argument of `smart_hybrid_search`.  `tup4` is a 4-tuple
`(query_text, start_date, end_date, georeference)` with the field types the
rest of the spec describes; `malformed` stands for every other Python value
(a non-tuple, or a tuple whose length is not 4), for which the guard at
lines 105–106 raises `ValueError`. -/
inductive SearchArg where
  | tup4 (query_text : String) (start_date : Option String)
      (end_date : Option String) (georef : String)
  | malformed
  deriving DecidableEq

/-- External collaborators of one request: the two index responses, the
geocoder attempt oracle, geopy's geodesic distance (`none` models a raised
exception) and the float `10 ** x` operation. -/
structure Oracles where
  lex_resp : List Hit
  sem_resp : List Hit
  geo_remote : Nat → GeoOutcome
  geodesic_km : ℚ × ℚ → ℚ × ℚ → Option ℚ
  ten_pow : ℚ → ℚ

/-- Instrumentation: how many index searches, embedding-model calls and
remote geocoder calls a run issued. -/
structure SearchCounts where
  search_calls : Nat
  encode_calls : Nat
  geo_remote_calls : Nat
  deriving DecidableEq, Repr

/-- The observable output of `smart_hybrid_search`: the presented hits, and
the date-range filter, if any, that was attached to the lexical index query
(`range_filter`, ir_core.py lines 127–133) as an inclusive `(gte, lte)`
pair. -/
structure SearchOutput where
  hits : List Hit
  lex_range : Option (Option PyDate × Option PyDate)
  deriving DecidableEq, Repr

/-- `to_datetime` (ir_core.py lines 111–118) on the string-or-`None` inputs
the HTTP layer supplies: `None` stays `None`; a string is cut at the first
`'T'` and parsed with `datetime.fromisoformat`, which raises `ValueError`
on a malformed date. -/
def to_datetime (s? : Option String) : Except PyErr (Option PyDate) :=
  match s? with
  | none => .ok none
  | some s =>
    match parse_iso_date ⟨s.data.takeWhile (fun c => c ≠ 'T')⟩ with
    | some d => .ok (some d)
    | none => .error .valueError

/-- Georeference resolution (ir_core.py lines 135–151): skip falsy or
blank strings; try `"lat,lon"` literal parsing when a comma is present
(failures fall through); otherwise call `geocode_cached`, with the
`"usa"`-substring fallback coordinate when the geocoder returns nothing. -/
def resolve_georef (georef : String) (cache : GeoCache)
    (remote : Nat → GeoOutcome) : Option (ℚ × ℚ) × GeoCache × Nat :=
  if georef ≠ "" ∧ py_strip georef ≠ "" then
    let g := py_strip georef
    let literal := if (',' ∈ g.data) then parse_two_floats g else none
    match literal with
    | some p => (some p, cache, 0)
    | none =>
      let r := geocode_cached cache remote g 3
      match r.1 with
      | some loc => (some (loc.lat, loc.lon), r.2.1, r.2.2)
      | none =>
        if py_contains_sub (py_lower g) "usa" then
          (some (398283 / 10000, -985795 / 10000), r.2.1, r.2.2)
        else (none, r.2.1, r.2.2)
  else (none, cache, 0)

/-- `smart_hybrid_search(query_tuple, size=10)` (ir_core.py lines 92–256),
with the geocode cache threaded explicitly and external calls counted.
The steps, in source order: tuple-shape guard; date conversion (which can
raise); defaulting of a missing end date to December 31 of the start year;
construction of the lexical range filter, where the upper bound is
`end.date() + timedelta(days=1) - timedelta(seconds=1)` under Python date
arithmetic; georeference resolution; the two index queries; candidate
fusion; re-ranking; presentation of the top `size`. -/
def smart_hybrid_search (query_tuple : SearchArg) (size : Nat)
    (cache : GeoCache) (o : Oracles) :
    Except PyErr SearchOutput × GeoCache × SearchCounts :=
  match query_tuple with
  | .malformed => (.error .valueError, cache, ⟨0, 0, 0⟩)
  | .tup4 query_text start_input end_input georef =>
    match to_datetime start_input with
    | .error e => (.error e, cache, ⟨0, 0, 0⟩)
    | .ok start? =>
      match to_datetime end_input with
      | .error e => (.error e, cache, ⟨0, 0, 0⟩)
      | .ok end_raw? =>
        let end? := if end_raw?.isNone ∧ start?.isSome then
            start?.map (fun st => ⟨st.year, 12, 31⟩)
          else end_raw?
        let lte? := end?.map (fun en => date_sub_td (date_add_td en ⟨1, 0⟩) ⟨0, 1⟩)
        let lex_range := if start?.isSome || end?.isSome then some (start?, lte?) else none
        let geo := resolve_georef georef cache o.geo_remote
        let query_point := geo.1
        let cands := combine_candidates o.lex_resp o.sem_resp start? end?
        let query_words := (py_lower_split query_text).dedup
        let ranked := rerank query_words query_point o.geodesic_km o.ten_pow cands
        (.ok ⟨present ranked size, lex_range⟩, geo.2.1, ⟨2, 1, geo.2.2⟩)

/-- Modelled from the spec: the index's server-side inclusive date-range
filter, the contract the OpenSearch collaborator satisfies for the
`range` clause `smart_hybrid_search` sends (spec §4.2: «applies an
inclusive date range filter»).  A document date passes iff it is not
before `gte` and not after `lte` (absent bounds are unconstrained). -/
def index_range_accepts (gte? lte? : Option PyDate) (d : PyDate) : Bool :=
  (match gte? with
   | some g => !(py_date_lt d g)
   | none => true) &&
  (match lte? with
   | some l => !(py_date_lt l d)
   | none => true)

/-- The `/search` handler (app.py lines 9–42): strip the query text, return
an empty JSON list immediately when it is empty, otherwise delegate to
`smart_hybrid_search` with the `(q, start, end, geo)` tuple and format the
returned hits (the formatting touches no score, so we return the hits). -/
def app_search (q : String) (from? to? : Option String) (geo : String)
    (size : Nat) (cache : GeoCache) (o : Oracles) :
    Except PyErr (List Hit) × GeoCache × SearchCounts :=
  let q' := py_strip q
  if q' = "" then (.ok [], cache, ⟨0, 0, 0⟩)
  else
    match smart_hybrid_search (.tup4 q' from? to? geo) size cache o with
    | (.ok out, c, n) => (.ok out.hits, c, n)
    | (.error e, c, n) => (.error e, c, n)

/-! ## Definitions written from the spec (for refinement comparison) -/

/-- Modelled from the spec (§4.5): the claimed content-term boost factor
`min(3.0, 1 + c * 0.7)` where `c` is the number of distinct query terms
present in the content.  No counterpart exists in `smart_hybrid_search`;
this definition exists only to compare the spec's words with the code. -/
def spec_content_factor (query_words : List String) (content : String) : ℚ :=
  min 3 (1 + (inter_count query_words (py_lower_split content) : ℚ) * (7 / 10))

/-! ## Concrete fixtures and run extractors used by closed statements -/

/-- An oracle whose index returns the given hit lists, whose geocoder always
answers `None`, whose geodesic call always raises, and whose float power
returns `1` (none of these three are exercised by the runs below). -/
def oracle_of (lex sem : List Hit) : Oracles :=
  ⟨lex, sem, fun _ => .notFound, fun _ _ => none, fun _ => 1⟩

/-- Did the run return without raising? -/
def search_ok (r : Except PyErr SearchOutput × GeoCache × SearchCounts) : Bool :=
  match r.1 with
  | .ok _ => true
  | .error _ => false

/-- The presented scores of a run (empty on an exception). -/
def search_scores (r : Except PyErr SearchOutput × GeoCache × SearchCounts) : List ℚ :=
  match r.1 with
  | .ok out => out.hits.map Hit.score
  | .error _ => []

/-- The presented document ids of a run (empty on an exception). -/
def search_ids (r : Except PyErr SearchOutput × GeoCache × SearchCounts) : List String :=
  match r.1 with
  | .ok out => out.hits.map Hit.id
  | .error _ => []

/-- The date-range filter a run attached to its lexical index query. -/
def search_lex_range (r : Except PyErr SearchOutput × GeoCache × SearchCounts) :
    Option (Option PyDate × Option PyDate) :=
  match r.1 with
  | .ok out => out.lex_range
  | .error _ => none

/-- Lexical hit A of the end-to-end ranking fixture: score 5.0, title
«oil prices rise». -/
def hit_oil_a : Hit := ⟨"A", ⟨some "oil prices rise", none, none, none⟩, 5⟩

/-- Semantic hit for the same document A: score 2.0. -/
def hit_oil_a_sem : Hit := ⟨"A", ⟨some "oil prices rise", none, none, none⟩, 2⟩

/-- Semantic hit B: score 3.0, title «gold market». -/
def hit_gold_b : Hit := ⟨"B", ⟨some "gold market", none, none, none⟩, 3⟩

/-- A single lexical hit with score 200.0 (used to exhibit a presented
score outside `[0, 100]`). -/
def hit_big : Hit := ⟨"BIG", ⟨some "x", none, none, none⟩, 200⟩

/-- A candidate whose content contains the query term «oil» but whose title
does not, with base score 1 and no date or geopoint (used to compare the
spec's content boost with the code). -/
def cand_content : Cand :=
  ⟨⟨"C", ⟨some "gold", some "oil market report", none, none⟩, 1⟩,
    ⟨some "gold", some "oil market report", none, none⟩, 1, 1, 0⟩

/-- A semantic hit dated 1988-01-01 (used by the date-range claim). -/
def hit_1988 : Hit := ⟨"D", ⟨some "x", none, some "1988-01-01", none⟩, 4⟩


/-- A geodesic oracle that always raises (every call returns `none`). -/
def trivial_gd : ℚ × ℚ → ℚ × ℚ → Option ℚ := fun _ _ => none

/-- A degenerate float-power oracle (never consulted by the runs below). -/
def trivial_tp : ℚ → ℚ := fun _ => 1

/-- A source with every field absent. -/
def empty_src : Source := ⟨none, none, none, none⟩

/-- A candidate whose stored date string is unparseable. -/
def cand_bad_date : Cand :=
  ⟨⟨"E", ⟨some "tin report", none, some "notadate", none⟩, 2⟩,
    ⟨some "tin report", none, some "notadate", none⟩, 2, 2, 0⟩

/-- Decidable equality of `Except` results (needed for closed statements
about runs). -/
instance {ε α : Type} [DecidableEq ε] [DecidableEq α] : DecidableEq (Except ε α) := fun a b =>
  match a, b with
  | .ok x, .ok y =>
    if h : x = y then .isTrue (congrArg Except.ok h)
    else .isFalse (fun hc => h (Except.ok.inj hc))
  | .ok _, .error _ => .isFalse (fun hc => Except.noConfusion hc)
  | .error _, .ok _ => .isFalse (fun hc => Except.noConfusion hc)
  | .error e, .error f =>
    if h : e = f then .isTrue (congrArg Except.error h)
    else .isFalse (fun hc => h (Except.error.inj hc))

/-! ## Helper lemmas -/

theorem dget_dset_self {α : Type} (m : List (String × α)) (k : String) (v : α) :
    dget (dset m k v) k = some v := by
  induction m with
  | nil => simp [dget, dset]
  | cons p t ih =>
    obtain ⟨k', v'⟩ := p
    by_cases h : k' = k
    · simp [dget, dset, h]
    · simp [dget, dset, h, ih]

theorem dget_dset_ne {α : Type} (m : List (String × α)) (k k' : String) (v : α)
    (h : k ≠ k') : dget (dset m k v) k' = dget m k' := by
  induction m with
  | nil => simp [dget, dset, h]
  | cons p t ih =>
    obtain ⟨k0, v0⟩ := p
    by_cases h0 : k0 = k
    · subst h0
      simp [dget, dset, h]
    · simp only [dset, if_neg h0, dget]
      by_cases h1 : k0 = k'
      · simp [h1]
      · simp [h1, ih]

theorem keys_dset_mem {α : Type} (m : List (String × α)) (k : String) (v : α)
    (h : k ∈ m.map Prod.fst) : (dset m k v).map Prod.fst = m.map Prod.fst := by
  induction m with
  | nil => simp at h
  | cons p t ih =>
    obtain ⟨k0, v0⟩ := p
    by_cases h0 : k0 = k
    · simp [dset, h0]
    · simp only [List.map_cons, List.mem_cons] at h
      rcases h with h | h
      · exact absurd h.symm h0
      · simp [dset, h0, ih h]

theorem keys_dset_not_mem {α : Type} (m : List (String × α)) (k : String) (v : α)
    (h : k ∉ m.map Prod.fst) :
    (dset m k v).map Prod.fst = m.map Prod.fst ++ [k] := by
  induction m with
  | nil => simp [dset]
  | cons p t ih =>
    obtain ⟨k0, v0⟩ := p
    simp only [List.map_cons, List.mem_cons] at h
    push_neg at h
    have h0 : ¬ k0 = k := fun hh => h.1 hh.symm
    simp [dset, h0, ih h.2]

theorem nodup_keys_dset {α : Type} (m : List (String × α)) (k : String) (v : α)
    (h : (m.map Prod.fst).Nodup) : ((dset m k v).map Prod.fst).Nodup := by
  by_cases hk : k ∈ m.map Prod.fst
  · rw [keys_dset_mem m k v hk]; exact h
  · rw [keys_dset_not_mem m k v hk]
    refine List.Nodup.append h (List.nodup_singleton k) ?_
    intro a ha hb
    rw [List.mem_singleton] at hb
    subst hb
    exact hk ha

/-- The re-ranking body factors into the fused base score times the three
boost factors (each branch that leaves the score untouched is the factor
`1`). -/
theorem score_candidate_eq_factors (qw : List String) (qp : Option (ℚ × ℚ))
    (gd : ℚ × ℚ → ℚ × ℚ → Option ℚ) (tp : ℚ → ℚ) (c : Cand) :
    score_candidate qw qp gd tp c =
      c.score * title_factor (inter_count qw (py_lower_split (c.source.title.getD "")))
        * recency_factor c.source * geo_factor qp gd tp c.source := by
  simp only [score_candidate, title_factor, recency_factor, geo_factor]
  repeat' split
  all_goals ring

theorem title_factor_mono {m m' : Nat} (h : m ≤ m') : title_factor m ≤ title_factor m' := by
  unfold title_factor
  split_ifs with h1 h2 h2
  · have hc : (m : ℚ) ≤ (m' : ℚ) := by exact_mod_cast h
    nlinarith
  · exact absurd (lt_of_lt_of_le h1 h) h2
  · have hc : 0 ≤ (m' : ℚ) := by positivity
    nlinarith
  · exact le_refl _

theorem one_le_title_factor (m : Nat) : 1 ≤ title_factor m := by
  unfold title_factor
  split_ifs
  · have hc : 0 ≤ (m : ℚ) := by positivity
    nlinarith
  · exact le_refl _

theorem recency_factor_months_antitone {mo mo' : Int} (h : mo ≤ mo') :
    recency_factor_months mo' ≤ recency_factor_months mo := by
  unfold recency_factor_months
  have hc : (mo : ℚ) ≤ (mo' : ℚ) := by exact_mod_cast h
  have : 1 - (mo' : ℚ) * (1 / 50) ≤ 1 - (mo : ℚ) * (1 / 50) := by nlinarith
  exact max_le_max (le_refl _) this

theorem recency_factor_months_ge (mo : Int) : 1 / 2 ≤ recency_factor_months mo :=
  le_max_left _ _

theorem recency_factor_ge (src : Source) : 1 / 2 ≤ recency_factor src := by
  simp only [recency_factor]
  split_ifs
  · split
    · exact recency_factor_months_ge _
    · norm_num
  · norm_num

theorem geo_factor_dist_ge (tp : ℚ → ℚ) (d : ℚ) : 1 / 10 ≤ geo_factor_dist tp d :=
  le_max_left _ _

theorem geo_factor_ge (qp : Option (ℚ × ℚ)) (gd : ℚ × ℚ → ℚ × ℚ → Option ℚ)
    (tp : ℚ → ℚ) (src : Source) : 1 / 10 ≤ geo_factor qp gd tp src := by
  unfold geo_factor
  repeat' split
  all_goals first
  | exact geo_factor_dist_ge _ _
  | norm_num

theorem insert_desc_perm (x : Hit × ℚ) (l : List (Hit × ℚ)) :
    List.Perm (insert_desc x l) (x :: l) := by
  induction l with
  | nil => simp [insert_desc]
  | cons y ys ih =>
    simp only [insert_desc]
    split
    · exact List.Perm.refl _
    · exact (ih.cons y).trans (List.Perm.swap x y ys)

theorem sort_desc_perm (l : List (Hit × ℚ)) : List.Perm (sort_desc l) l := by
  induction l with
  | nil => exact List.Perm.refl _
  | cons x xs ih =>
    exact (insert_desc_perm x (sort_desc xs)).trans (ih.cons x)

theorem mem_insert_desc {z x : Hit × ℚ} {l : List (Hit × ℚ)} :
    z ∈ insert_desc x l ↔ z = x ∨ z ∈ l := by
  rw [(insert_desc_perm x l).mem_iff, List.mem_cons]

theorem sorted_insert_desc {x : Hit × ℚ} {l : List (Hit × ℚ)}
    (h : l.Pairwise (fun a b => b.2 ≤ a.2)) :
    (insert_desc x l).Pairwise (fun a b => b.2 ≤ a.2) := by
  induction l with
  | nil => simp [insert_desc]
  | cons y ys ih =>
    rw [List.pairwise_cons] at h
    obtain ⟨hy, hys⟩ := h
    simp only [insert_desc]
    split
    · rename_i hc
      rw [List.pairwise_cons]
      refine ⟨?_, List.pairwise_cons.mpr ⟨hy, hys⟩⟩
      intro z hz
      rcases List.mem_cons.mp hz with rfl | hz
      · exact hc.1
      · exact le_trans (hy z hz) hc.1
    · rename_i hc
      have hx : x.2 ≤ y.2 := by
        by_cases hle : y.2 ≤ x.2
        · by_cases hxe : x.2 ≤ y.2
          · exact hxe
          · exact absurd ⟨hle, hxe⟩ hc
        · exact le_of_not_le hle
      rw [List.pairwise_cons]
      refine ⟨?_, ih hys⟩
      intro z hz
      rcases mem_insert_desc.mp hz with rfl | hz
      · exact hx
      · exact hy z hz

theorem sorted_sort_desc (l : List (Hit × ℚ)) :
    (sort_desc l).Pairwise (fun a b => b.2 ≤ a.2) := by
  induction l with
  | nil => simp [sort_desc]
  | cons x xs ih => exact sorted_insert_desc ih

theorem round_half_even_lb (q : ℚ) : ⌊q⌋ ≤ round_half_even q := by
  simp only [round_half_even]
  split_ifs <;> omega

theorem round_half_even_ub (q : ℚ) : round_half_even q ≤ ⌊q⌋ + 1 := by
  simp only [round_half_even]
  split_ifs <;> omega

theorem round_half_even_mono {q r : ℚ} (h : q ≤ r) :
    round_half_even q ≤ round_half_even r := by
  rcases eq_or_lt_of_le (Int.floor_mono h) with heq | hlt
  · simp only [round_half_even]
    rw [← heq]
    have hab : q - (⌊q⌋ : ℚ) ≤ r - (⌊q⌋ : ℚ) := by linarith
    split_ifs <;> first
    | omega
    | linarith
  · calc round_half_even q ≤ ⌊q⌋ + 1 := round_half_even_ub q
      _ ≤ ⌊r⌋ := by omega
      _ ≤ round_half_even r := round_half_even_lb r

theorem py_round3_mono {q r : ℚ} (h : q ≤ r) : py_round3 q ≤ py_round3 r := by
  unfold py_round3
  have h1 : q * 1000 ≤ r * 1000 := by nlinarith
  have h2 : (round_half_even (q * 1000) : ℚ) ≤ (round_half_even (r * 1000) : ℚ) := by
    exact_mod_cast round_half_even_mono h1
  linarith

theorem sem_keep_none (src : Source) : sem_keep none none src = true := by
  simp [sem_keep]

theorem dget_lex_fold_not_mem (lex : List Hit) (m0 : CandMap) (id : String)
    (h : ∀ hl ∈ lex, hl.id ≠ id) :
    dget (lex.foldl (fun m h => dset m h.id (lex_candidate h)) m0) id = dget m0 id := by
  induction lex generalizing m0 with
  | nil => rfl
  | cons hd t ih =>
    simp only [List.foldl_cons]
    rw [ih _ (fun hl hm => h hl (List.mem_cons_of_mem hd hm))]
    exact dget_dset_ne m0 hd.id id _ (h hd (List.mem_cons_self hd t))

theorem dget_lex_fold_mem (lex : List Hit) (m0 : CandMap) (hl : Hit)
    (hnd : (lex.map Hit.id).Nodup) (hmem : hl ∈ lex) :
    dget (lex.foldl (fun m h => dset m h.id (lex_candidate h)) m0) hl.id =
      some (lex_candidate hl) := by
  induction lex generalizing m0 with
  | nil => exact absurd hmem (List.not_mem_nil hl)
  | cons hd t ih =>
    simp only [List.map_cons, List.nodup_cons] at hnd
    rcases List.mem_cons.mp hmem with rfl | hmem
    · simp only [List.foldl_cons]
      rw [dget_lex_fold_not_mem t _ hl.id
        (fun hl' hm' heq' => hnd.1 (heq' ▸ List.mem_map_of_mem Hit.id hm'))]
      exact dget_dset_self m0 hl.id _
    · simp only [List.foldl_cons]
      exact ih _ hnd.2 hmem

theorem dget_sem_fold_not_mem (sem : List Hit) (m0 : CandMap) (id : String)
    (h : ∀ hs ∈ sem, hs.id ≠ id) :
    dget (sem.foldl (sem_step none none) m0) id = dget m0 id := by
  induction sem generalizing m0 with
  | nil => rfl
  | cons hd t ih =>
    simp only [List.foldl_cons]
    rw [ih _ (fun hs hm => h hs (List.mem_cons_of_mem hd hm))]
    have hne : hd.id ≠ id := h hd (List.mem_cons_self hd t)
    simp only [sem_step, sem_keep_none, if_true]
    cases dget m0 hd.id with
    | none => exact dget_dset_ne m0 hd.id id _ hne
    | some c => exact dget_dset_ne m0 hd.id id _ hne

theorem dget_sem_fold_mem (sem : List Hit) (m0 : CandMap) (hs : Hit)
    (hnd : (sem.map Hit.id).Nodup) (hmem : hs ∈ sem) :
    dget (sem.foldl (sem_step none none) m0) hs.id =
      some (match dget m0 hs.id with
            | some c => sem_merge c hs
            | none => sem_candidate hs) := by
  induction sem generalizing m0 with
  | nil => exact absurd hmem (List.not_mem_nil hs)
  | cons hd t ih =>
    simp only [List.map_cons, List.nodup_cons] at hnd
    rcases List.mem_cons.mp hmem with rfl | hmem
    · simp only [List.foldl_cons]
      rw [dget_sem_fold_not_mem t _ hs.id
        (fun hs' hm' heq' => hnd.1 (heq' ▸ List.mem_map_of_mem Hit.id hm'))]
      simp only [sem_step, sem_keep_none, if_true]
      cases dget m0 hs.id with
      | none => exact dget_dset_self m0 hs.id _
      | some c => exact dget_dset_self m0 hs.id _
    · simp only [List.foldl_cons]
      rw [ih _ hnd.2 hmem]
      have hne : hd.id ≠ hs.id := fun heq' => hnd.1 (heq' ▸ List.mem_map_of_mem Hit.id hmem)
      simp only [sem_step, sem_keep_none, if_true]
      cases dget m0 hd.id with
      | none => rw [dget_dset_ne m0 hd.id hs.id _ hne]
      | some c => rw [dget_dset_ne m0 hd.id hs.id _ hne]

theorem nodup_keys_lex_fold (lex : List Hit) (m0 : CandMap)
    (h : (m0.map Prod.fst).Nodup) :
    ((lex.foldl (fun m h => dset m h.id (lex_candidate h)) m0).map Prod.fst).Nodup := by
  induction lex generalizing m0 with
  | nil => exact h
  | cons hd t ih => exact ih _ (nodup_keys_dset m0 hd.id _ h)

theorem nodup_keys_sem_fold (sem : List Hit) (m0 : CandMap) (start? end? : Option PyDate)
    (h : (m0.map Prod.fst).Nodup) :
    ((sem.foldl (sem_step start? end?) m0).map Prod.fst).Nodup := by
  induction sem generalizing m0 with
  | nil => exact h
  | cons hd t ih =>
    refine ih _ ?_
    simp only [sem_step]
    split
    · cases dget m0 hd.id with
      | none => exact nodup_keys_dset m0 hd.id _ h
      | some c => exact nodup_keys_dset m0 hd.id _ h
    · exact h

theorem geo_retry_loop_count_le (remote : Nat → GeoOutcome) (fuel i : Nat) :
    (geo_retry_loop remote fuel i).2 ≤ fuel := by
  induction fuel generalizing i with
  | zero => simp [geo_retry_loop]
  | succ n ih =>
    have h1 := ih (i + 1)
    simp only [geo_retry_loop]
    rcases remote i with loc | _ | _ | _ <;> simp <;> omega

theorem recency_factor_eq_one_of_unparseable {c : Cand} {ds : String}
    (hd : c.source.date = some ds)
    (hp : parse_iso_datetime (py_replace ds "Z" "") = none) :
    recency_factor c.source = 1 := by
  simp only [recency_factor, hd, Option.getD_some]
  split_ifs with h
  · rw [hp]
  · rfl

theorem geo_factor_eq_one_of_no_geopoint {qp : Option (ℚ × ℚ)}
    {gd : ℚ × ℚ → ℚ × ℚ → Option ℚ} {tp : ℚ → ℚ} {src : Source}
    (h : src.geopoint = none) : geo_factor qp gd tp src = 1 := by
  cases qp with
  | none => rfl
  | some p => simp only [geo_factor, h]

theorem geo_factor_eq_one_of_geodesic_fails {p : ℚ × ℚ}
    {gd : ℚ × ℚ → ℚ × ℚ → Option ℚ} {tp : ℚ → ℚ} {src : Source} {gp : GeoPt}
    (h : src.geopoint = some gp) (hg : gd p (gp.lat, gp.lon) = none) :
    geo_factor (some p) gd tp src = 1 := by
  simp only [geo_factor, h]
  split_ifs with hz
  · rw [hg]
  · rfl

/-! ## Claims -/

/-- C2 (counterexample): the claim «the final score is multiplied by
`min(3.0, 1 + c * 0.7)`» is false on the code.  For the concrete candidate
`cand_content` (base score 1, one distinct query term in the content, no
title match, no date, no geopoint) the claimed factor is `1.7`, so the claim
predicts a final score of `1.7`; `smart_hybrid_search`'s re-ranking loop
contains no content boost at all and yields `1`. -/
theorem c2_content_boost_counterexample :
    score_candidate ["oil"] none trivial_gd trivial_tp cand_content = 1 ∧
    spec_content_factor ["oil"] (cand_content.source.content.getD "") = 17 / 10 ∧
    ¬ score_candidate ["oil"] none trivial_gd trivial_tp cand_content =
        cand_content.score * spec_content_factor ["oil"] (cand_content.source.content.getD "") := by
  have h0 : inter_count ["oil"] (py_lower_split "tin report") = 0 := by decide
  have hs : score_candidate ["oil"] none trivial_gd trivial_tp cand_content = 1 := by
    have hz : inter_count ["oil"] (py_lower_split "gold") = 0 := by decide
    simp [score_candidate, cand_content, hz]
  have hf : spec_content_factor ["oil"] (cand_content.source.content.getD "") = 17 / 10 := by
    have h1 : inter_count ["oil"] (py_lower_split "oil market report") = 1 := by decide
    simp [spec_content_factor, cand_content, h1]
    norm_num
  refine ⟨hs, hf, ?_⟩
  rw [hs, hf]
  norm_num [cand_content]

/-- C2 (amended): the re-ranking step of `smart_hybrid_search` applies no
content-term boost whatsoever — the final score of a candidate is
independent of the document content (equivalently, the content factor it
applies is identically 1) — and the content factor the spec prescribes is
indeed bounded by 3 for every content-match count. -/
theorem c2_score_independent_of_content (qw : List String) (qp : Option (ℚ × ℚ))
    (gd : ℚ × ℚ → ℚ × ℚ → Option ℚ) (tp : ℚ → ℚ) (c : Cand) (content? : Option String) :
    score_candidate qw qp gd tp
        { c with hit := { c.hit with source := { c.hit.source with content := content? } },
                 source := { c.source with content := content? } } =
      score_candidate qw qp gd tp c ∧
    spec_content_factor qw (c.source.content.getD "") ≤ 3 := by
  constructor
  · simp only [score_candidate]
  · exact min_le_left _ _

/-- C2 (amended) witness: the score of `cand_content` is unchanged when its
content is erased. -/
theorem c2_score_independent_of_content_witness :
    score_candidate ["oil"] none trivial_gd trivial_tp
        { cand_content with
            hit := { cand_content.hit with
                       source := { cand_content.hit.source with content := none } },
            source := { cand_content.source with content := none } } =
      score_candidate ["oil"] none trivial_gd trivial_tp cand_content ∧
    spec_content_factor ["oil"] (cand_content.source.content.getD "") ≤ 3 :=
  c2_score_independent_of_content ["oil"] none trivial_gd trivial_tp cand_content none

/-- C5: title-term boost and end-to-end ranking.  (1) Generally, whenever at
least one distinct (case-insensitive, whitespace-tokenized) query term occurs
in the title, the re-ranked score is the base score multiplied by
`(1 + m * 2.5)` (and the remaining boost factors).  (2) For query
«oil prices», lexical hit A (score 5.0, title «oil prices rise») and semantic
hits A (score 2.0) and B (score 3.0, title «gold market»): candidate A is
fused to base 7.0, the output order is `[A, B]`, and the presented scores
are `[42.0, 3.0]` — in particular A's 42.0 is `7.0 * (1 + 2 * 2.5)`. -/
theorem c5_title_boost_and_ranking :
    (∀ (qw : List String) (qp : Option (ℚ × ℚ)) (gd : ℚ × ℚ → ℚ × ℚ → Option ℚ)
        (tp : ℚ → ℚ) (c : Cand),
        0 < inter_count qw (py_lower_split (c.source.title.getD "")) →
        score_candidate qw qp gd tp c =
          c.score * (1 + (inter_count qw (py_lower_split (c.source.title.getD "")) : ℚ) * (5 / 2))
            * recency_factor c.source * geo_factor qp gd tp c.source) ∧
    dget (combine_candidates [hit_oil_a] [hit_oil_a_sem, hit_gold_b] none none) "A" =
      some ⟨hit_oil_a, hit_oil_a.source, 7, 5, 2⟩ ∧
    (7 : ℚ) * (1 + 2 * (5 / 2)) = 42 ∧
    search_ids (smart_hybrid_search (.tup4 "oil prices" none none "") 10 []
        (oracle_of [hit_oil_a] [hit_oil_a_sem, hit_gold_b])) = ["A", "B"] ∧
    search_scores (smart_hybrid_search (.tup4 "oil prices" none none "") 10 []
        (oracle_of [hit_oil_a] [hit_oil_a_sem, hit_gold_b])) = [42, 3] := by
  have hgen : ∀ (qw : List String) (qp : Option (ℚ × ℚ)) (gd : ℚ × ℚ → ℚ × ℚ → Option ℚ)
      (tp : ℚ → ℚ) (c : Cand),
      0 < inter_count qw (py_lower_split (c.source.title.getD "")) →
      score_candidate qw qp gd tp c =
        c.score * (1 + (inter_count qw (py_lower_split (c.source.title.getD "")) : ℚ) * (5 / 2))
          * recency_factor c.source * geo_factor qp gd tp c.source := by
    intro qw qp gd tp c h
    rw [score_candidate_eq_factors, title_factor, if_pos h]
  have hcomb : combine_candidates [hit_oil_a] [hit_oil_a_sem, hit_gold_b] none none =
      [("A", ⟨hit_oil_a, hit_oil_a.source, 7, 5, 2⟩), ("B", ⟨hit_gold_b, hit_gold_b.source, 3, 0, 3⟩)] := by
    simp [combine_candidates, sem_step, sem_keep, dget, dset, lex_candidate, sem_candidate,
      sem_merge, hit_oil_a, hit_oil_a_sem, hit_gold_b]
    norm_num [hit_oil_a, hit_gold_b]
  have hsA : score_candidate ((py_lower_split "oil prices").dedup) none trivial_gd trivial_tp
      ⟨hit_oil_a, hit_oil_a.source, 7, 5, 2⟩ = 42 := by
    have h1 : inter_count ((py_lower_split "oil prices").dedup)
        (py_lower_split "oil prices rise") = 2 := by decide
    simp [score_candidate, hit_oil_a, h1, trivial_gd, trivial_tp]
    norm_num
  have hsB : score_candidate ((py_lower_split "oil prices").dedup) none trivial_gd trivial_tp
      ⟨hit_gold_b, hit_gold_b.source, 3, 0, 3⟩ = 3 := by
    have h2 : inter_count ((py_lower_split "oil prices").dedup)
        (py_lower_split "gold market") = 0 := by decide
    simp [score_candidate, hit_gold_b, h2]
  have hpres : present [(hit_oil_a, 42), (hit_gold_b, 3)] 10 =
      [{ hit_oil_a with score := 42 }, { hit_gold_b with score := 3 }] := by
    rw [present, show sort_desc [(hit_oil_a, 42), (hit_gold_b, 3)] =
        [(hit_oil_a, 42), (hit_gold_b, 3)] from by norm_num [sort_desc, insert_desc]]
    norm_num [py_round3, round_half_even, hit_oil_a, hit_gold_b]
  have hrun : (smart_hybrid_search (.tup4 "oil prices" none none "") 10 []
      (oracle_of [hit_oil_a] [hit_oil_a_sem, hit_gold_b])).1 =
      .ok ⟨[{ hit_oil_a with score := 42 }, { hit_gold_b with score := 3 }], none⟩ := by
    have hor : oracle_of [hit_oil_a] [hit_oil_a_sem, hit_gold_b] =
        ⟨[hit_oil_a], [hit_oil_a_sem, hit_gold_b], fun _ => .notFound, trivial_gd, trivial_tp⟩ := rfl
    simp [smart_hybrid_search, to_datetime, resolve_georef, hor, rerank, hcomb, hsA, hsB, hpres]
  refine ⟨hgen, ?_, by norm_num, ?_, ?_⟩
  · rw [hcomb]
    rfl
  · simp only [search_ids]
    rw [hrun]
    simp [hit_oil_a, hit_gold_b]
  · simp only [search_scores]
    rw [hrun]
    simp [hit_oil_a, hit_gold_b]

/-- C5 witness: the general title-boost conjunct applied to the fused
candidate A of the scenario (two distinct query terms in the title). -/
theorem c5_title_boost_witness :
    0 < inter_count ((py_lower_split "oil prices").dedup)
        ((⟨hit_oil_a, hit_oil_a.source, 7, 5, 2⟩ : Cand).source.title.getD "" |> py_lower_split) ∧
    score_candidate ((py_lower_split "oil prices").dedup) none trivial_gd trivial_tp
        ⟨hit_oil_a, hit_oil_a.source, 7, 5, 2⟩ =
      (⟨hit_oil_a, hit_oil_a.source, 7, 5, 2⟩ : Cand).score *
          (1 + (inter_count ((py_lower_split "oil prices").dedup)
              ((⟨hit_oil_a, hit_oil_a.source, 7, 5, 2⟩ : Cand).source.title.getD ""
                |> py_lower_split) : ℚ) * (5 / 2))
        * recency_factor (⟨hit_oil_a, hit_oil_a.source, 7, 5, 2⟩ : Cand).source
        * geo_factor none trivial_gd trivial_tp (⟨hit_oil_a, hit_oil_a.source, 7, 5, 2⟩ : Cand).source :=
  ⟨by decide, c5_title_boost_and_ranking.1 ((py_lower_split "oil prices").dedup) none
    trivial_gd trivial_tp ⟨hit_oil_a, hit_oil_a.source, 7, 5, 2⟩ (by decide)⟩

/-- C7: boost monotonicity and floors.  (1) With a nonnegative base score,
increasing the title-term overlap count never decreases the final re-ranked
score (the other two boost factors held fixed, as the factorization of
`score_candidate` arranges them).  (2) The recency factor
`max(0.5, 1 - months_old * 0.02)` is antitone in the age in months and
(3) bounded below by `0.5`.  (4) The geo factor
`max(0.1, 10 ** (-dist / 10000))`, read exactly over the reals, is antitone
in the distance, and (5) as applied by the code it is bounded below by `0.1`
for every float-power oracle. -/
theorem c7_boost_monotonicity_and_floors :
    (∀ (qp : Option (ℚ × ℚ)) (gd : ℚ × ℚ → ℚ × ℚ → Option ℚ) (tp : ℚ → ℚ)
        (src : Source) (s : ℚ) (m m' : Nat), 0 ≤ s → m ≤ m' →
        s * title_factor m * recency_factor src * geo_factor qp gd tp src ≤
          s * title_factor m' * recency_factor src * geo_factor qp gd tp src) ∧
    (∀ mo mo' : Int, mo ≤ mo' → recency_factor_months mo' ≤ recency_factor_months mo) ∧
    (∀ mo : Int, 1 / 2 ≤ recency_factor_months mo) ∧
    (∀ d d' : ℝ, d ≤ d' →
        max (1 / 10) ((10 : ℝ) ^ (-(d' / 10000))) ≤ max (1 / 10) ((10 : ℝ) ^ (-(d / 10000)))) ∧
    (∀ (tp : ℚ → ℚ) (d : ℚ), 1 / 10 ≤ geo_factor_dist tp d) := by
  refine ⟨?_, fun mo mo' h => recency_factor_months_antitone h,
    recency_factor_months_ge, ?_, geo_factor_dist_ge⟩
  · intro qp gd tp src s m m' hs hm
    have hrec : (0 : ℚ) ≤ recency_factor src := le_trans (by norm_num) (recency_factor_ge src)
    have hgeo : (0 : ℚ) ≤ geo_factor qp gd tp src := le_trans (by norm_num) (geo_factor_ge qp gd tp src)
    have h1 : s * title_factor m ≤ s * title_factor m' :=
      mul_le_mul_of_nonneg_left (title_factor_mono hm) hs
    have h2 : s * title_factor m * recency_factor src ≤ s * title_factor m' * recency_factor src :=
      mul_le_mul_of_nonneg_right h1 hrec
    exact mul_le_mul_of_nonneg_right h2 hgeo
  · intro d d' h
    refine max_le_max (le_refl _) ?_
    rw [Real.rpow_le_rpow_left_iff (by norm_num : (1 : ℝ) < 10)]
    have : d / 10000 ≤ d' / 10000 := by linarith
    linarith

/-- C7 witness: the monotonicity and floor statements applied at concrete
inputs (base score 2, overlap counts 1 ≤ 2; ages 3 ≤ 4 months; distances
0 ≤ 1 km). -/
theorem c7_boost_monotonicity_witness :
    (2 * title_factor 1 * recency_factor empty_src * geo_factor none trivial_gd trivial_tp empty_src ≤
      2 * title_factor 2 * recency_factor empty_src * geo_factor none trivial_gd trivial_tp empty_src) ∧
    recency_factor_months 4 ≤ recency_factor_months 3 ∧
    1 / 2 ≤ recency_factor_months 7 ∧
    max (1 / 10) ((10 : ℝ) ^ (-((1 : ℝ) / 10000))) ≤ max (1 / 10) ((10 : ℝ) ^ (-((0 : ℝ) / 10000))) ∧
    1 / 10 ≤ geo_factor_dist trivial_tp 25 :=
  ⟨c7_boost_monotonicity_and_floors.1 none trivial_gd trivial_tp empty_src 2 1 2
      (by norm_num) (by norm_num),
    c7_boost_monotonicity_and_floors.2.1 3 4 (by norm_num),
    c7_boost_monotonicity_and_floors.2.2.1 7,
    c7_boost_monotonicity_and_floors.2.2.2.1 0 1 (by norm_num),
    c7_boost_monotonicity_and_floors.2.2.2.2 trivial_tp 25⟩

/-- C9: per-candidate scoring-error isolation.  (1) A candidate whose stored
date string does not parse keeps a final score: the recency boost is simply
skipped (factor 1) and the remaining boosts apply.  (2) A candidate with no
geopoint keeps a final score with the geo boost skipped, and (3) likewise
when the geodesic library call raises.  (4) Re-ranking is per-candidate:
replacing the candidate at position `i` leaves the ranked entry of every
other position unchanged. -/
theorem c9_scoring_error_isolation :
    (∀ (qw : List String) (qp : Option (ℚ × ℚ)) (gd : ℚ × ℚ → ℚ × ℚ → Option ℚ)
        (tp : ℚ → ℚ) (c : Cand) (ds : String), c.source.date = some ds →
        parse_iso_datetime (py_replace ds "Z" "") = none →
        score_candidate qw qp gd tp c =
          c.score * title_factor (inter_count qw (py_lower_split (c.source.title.getD "")))
            * geo_factor qp gd tp c.source) ∧
    (∀ (qw : List String) (qp : Option (ℚ × ℚ)) (gd : ℚ × ℚ → ℚ × ℚ → Option ℚ)
        (tp : ℚ → ℚ) (c : Cand), c.source.geopoint = none →
        score_candidate qw qp gd tp c =
          c.score * title_factor (inter_count qw (py_lower_split (c.source.title.getD "")))
            * recency_factor c.source) ∧
    (∀ (qw : List String) (p : ℚ × ℚ) (gd : ℚ × ℚ → ℚ × ℚ → Option ℚ)
        (tp : ℚ → ℚ) (c : Cand) (gp : GeoPt), c.source.geopoint = some gp →
        gd p (gp.lat, gp.lon) = none →
        score_candidate qw (some p) gd tp c =
          c.score * title_factor (inter_count qw (py_lower_split (c.source.title.getD "")))
            * recency_factor c.source) ∧
    (∀ (qw : List String) (qp : Option (ℚ × ℚ)) (gd : ℚ × ℚ → ℚ × ℚ → Option ℚ)
        (tp : ℚ → ℚ) (cands : CandMap) (e : String × Cand) (i j : Nat), i ≠ j →
        (rerank qw qp gd tp (cands.set i e))[j]? = (rerank qw qp gd tp cands)[j]?) := by
  refine ⟨?_, ?_, ?_, ?_⟩
  · intro qw qp gd tp c ds hd hp
    rw [score_candidate_eq_factors, recency_factor_eq_one_of_unparseable hd hp, mul_one]
  · intro qw qp gd tp c h
    rw [score_candidate_eq_factors, geo_factor_eq_one_of_no_geopoint h, mul_one]
  · intro qw p gd tp c gp h hg
    rw [score_candidate_eq_factors, geo_factor_eq_one_of_geodesic_fails h hg, mul_one]
  · intro qw qp gd tp cands e i j hij
    simp only [rerank, List.getElem?_map, List.getElem?_set_ne hij]

/-- C9 witness: the unparseable-date and missing-geopoint conjuncts applied
to `cand_bad_date` (date «notadate», no geopoint), and the isolation
conjunct applied at concrete positions 0 ≠ 1. -/
theorem c9_scoring_error_isolation_witness :
    (cand_bad_date.source.date = some "notadate" ∧
      parse_iso_datetime (py_replace "notadate" "Z" "") = none ∧
      score_candidate ["tin"] none trivial_gd trivial_tp cand_bad_date =
        cand_bad_date.score
          * title_factor (inter_count ["tin"] (py_lower_split (cand_bad_date.source.title.getD "")))
          * geo_factor none trivial_gd trivial_tp cand_bad_date.source) ∧
    (cand_bad_date.source.geopoint = none ∧
      score_candidate ["tin"] none trivial_gd trivial_tp cand_bad_date =
        cand_bad_date.score
          * title_factor (inter_count ["tin"] (py_lower_split (cand_bad_date.source.title.getD "")))
          * recency_factor cand_bad_date.source) ∧
    (rerank ["tin"] none trivial_gd trivial_tp
        ([("E", cand_bad_date), ("A", ⟨hit_oil_a, hit_oil_a.source, 7, 5, 2⟩)].set 0
          ("X", ⟨hit_gold_b, hit_gold_b.source, 3, 0, 3⟩)))[1]? =
      (rerank ["tin"] none trivial_gd trivial_tp
        [("E", cand_bad_date), ("A", ⟨hit_oil_a, hit_oil_a.source, 7, 5, 2⟩)])[1]? :=
  ⟨⟨by decide, by decide,
      c9_scoring_error_isolation.1 ["tin"] none trivial_gd trivial_tp cand_bad_date "notadate"
        (by decide) (by decide)⟩,
    ⟨by decide,
      c9_scoring_error_isolation.2.1 ["tin"] none trivial_gd trivial_tp cand_bad_date (by decide)⟩,
    c9_scoring_error_isolation.2.2.2 ["tin"] none trivial_gd trivial_tp
      [("E", cand_bad_date), ("A", ⟨hit_oil_a, hit_oil_a.source, 7, 5, 2⟩)]
      ("X", ⟨hit_gold_b, hit_gold_b.source, 3, 0, 3⟩) 0 1 (by norm_num)⟩

/-- C4: fusion identity (with no active date filter, so that no semantic hit
is date-discarded, and with the index contract that each hit list mentions a
document id at most once).  The candidate dict never holds two entries for
one id; a document id in both hit lists yields the single merged candidate
with `lexical_score` from the lexical hit, `semantic_score` from the
semantic hit and base score their sum; an id in exactly one list yields the
candidate with the other score defaulted to 0; an id in neither yields no
candidate. -/
theorem c4_fusion_identity (lex sem : List Hit)
    (hlex : (lex.map Hit.id).Nodup) (hsem : (sem.map Hit.id).Nodup) :
    ((combine_candidates lex sem none none).map Prod.fst).Nodup ∧
    ∀ id : String,
      (∀ hl ∈ lex, hl.id = id → ∀ hs ∈ sem, hs.id = id →
        dget (combine_candidates lex sem none none) id =
          some ⟨hl, hl.source, hl.score + hs.score, hl.score, hs.score⟩) ∧
      (∀ hl ∈ lex, hl.id = id → (∀ hs ∈ sem, hs.id ≠ id) →
        dget (combine_candidates lex sem none none) id = some (lex_candidate hl)) ∧
      ((∀ hl ∈ lex, hl.id ≠ id) → ∀ hs ∈ sem, hs.id = id →
        dget (combine_candidates lex sem none none) id = some (sem_candidate hs)) ∧
      ((∀ hl ∈ lex, hl.id ≠ id) → (∀ hs ∈ sem, hs.id ≠ id) →
        dget (combine_candidates lex sem none none) id = none) := by
  constructor
  · exact nodup_keys_sem_fold sem _ none none (nodup_keys_lex_fold lex [] (by simp))
  · intro id
    refine ⟨?_, ?_, ?_, ?_⟩
    · intro hl hlm hlid hs hsm hsid
      subst hlid
      unfold combine_candidates
      rw [← hsid, dget_sem_fold_mem sem _ hs hsem hsm, hsid,
        dget_lex_fold_mem lex [] hl hlex hlm]
      rfl
    · intro hl hlm hlid hnot
      subst hlid
      unfold combine_candidates
      rw [dget_sem_fold_not_mem sem _ hl.id hnot, dget_lex_fold_mem lex [] hl hlex hlm]
    · intro hnot hs hsm hsid
      subst hsid
      unfold combine_candidates
      rw [dget_sem_fold_mem sem _ hs hsem hsm, dget_lex_fold_not_mem lex [] hs.id hnot]
      rfl
    · intro hnotl hnots
      unfold combine_candidates
      rw [dget_sem_fold_not_mem sem _ id hnots, dget_lex_fold_not_mem lex [] id hnotl]
      rfl

/-- C4 witness: the merged candidate for id «A» appearing in both concrete
hit lists of the ranking fixture. -/
theorem c4_fusion_identity_witness :
    dget (combine_candidates [hit_oil_a] [hit_oil_a_sem, hit_gold_b] none none) "A" =
      some ⟨hit_oil_a, hit_oil_a.source, hit_oil_a.score + hit_oil_a_sem.score,
        hit_oil_a.score, hit_oil_a_sem.score⟩ :=
  ((c4_fusion_identity [hit_oil_a] [hit_oil_a_sem, hit_gold_b] (by decide)
      (by decide)).2 "A").1 hit_oil_a (by simp) (by decide) hit_oil_a_sem (by simp) (by decide)

/-- C6: geocode cache single-lookup invariant.  For a truthy place name, a
lookup issues at most 3 remote attempts; afterwards the normalized key holds
the returned value — positive or negative — in the cache; and a subsequent
lookup of the same name, under any behaviour of the remote geocoder, returns
exactly the cached value with zero remote calls and leaves the cache
unchanged (hence every later lookup of the key behaves identically). -/
theorem c6_geocode_cache_single_lookup (cache : GeoCache)
    (remote remote2 : Nat → GeoOutcome) (name : String) (h : name ≠ "") :
    (geocode_cached cache remote name 3).2.2 ≤ 3 ∧
    dget (geocode_cached cache remote name 3).2.1 (py_strip (py_lower name)) =
      some (geocode_cached cache remote name 3).1 ∧
    geocode_cached (geocode_cached cache remote name 3).2.1 remote2 name 3 =
      ((geocode_cached cache remote name 3).1, (geocode_cached cache remote name 3).2.1, 0) := by
  cases hc : dget cache (py_strip (py_lower name)) with
  | some v =>
    have h1 : geocode_cached cache remote name 3 = (v, cache, 0) := by
      simp [geocode_cached, if_neg h, hc]
    rw [h1]
    exact ⟨by simp, hc, by simp [geocode_cached, if_neg h, hc]⟩
  | none =>
    have h1 : geocode_cached cache remote name 3 =
        ((geo_retry_loop remote 3 0).1,
          dset cache (py_strip (py_lower name)) (geo_retry_loop remote 3 0).1,
          (geo_retry_loop remote 3 0).2) := by
      simp [geocode_cached, if_neg h, hc]
    rw [h1]
    refine ⟨geo_retry_loop_count_le remote 3 0, dget_dset_self cache _ _, ?_⟩
    simp [geocode_cached, if_neg h, dget_dset_self cache _ _]

/-- C6 witness: a concrete first lookup of «Paris» (the remote answers on
the second attempt after one transient failure: 2 remote calls ≤ 3), then a
second lookup against a remote oracle that would always fail — it still
returns the cached coordinate with zero calls. -/
theorem c6_geocode_cache_witness :
    (geocode_cached [] (fun i => if i = 0 then .transient else .found ⟨487/10, 23/10⟩) "Paris" 3).2.2 ≤ 3 ∧
    dget (geocode_cached [] (fun i => if i = 0 then .transient else .found ⟨487/10, 23/10⟩) "Paris" 3).2.1
        (py_strip (py_lower "Paris")) =
      some (geocode_cached [] (fun i => if i = 0 then .transient else .found ⟨487/10, 23/10⟩) "Paris" 3).1 ∧
    geocode_cached
        (geocode_cached [] (fun i => if i = 0 then .transient else .found ⟨487/10, 23/10⟩) "Paris" 3).2.1
        (fun _ => .permanent) "Paris" 3 =
      ((geocode_cached [] (fun i => if i = 0 then .transient else .found ⟨487/10, 23/10⟩) "Paris" 3).1,
        (geocode_cached [] (fun i => if i = 0 then .transient else .found ⟨487/10, 23/10⟩) "Paris" 3).2.1,
        0) :=
  c6_geocode_cache_single_lookup [] (fun i => if i = 0 then .transient else .found ⟨487/10, 23/10⟩)
    (fun _ => .permanent) "Paris" (by decide)

/-- C8: empty-query short circuit.  When the query text strips to the empty
string, the `/search` handler returns an empty result list without raising
and without issuing any index search, embedding call or remote geocoding
call, leaving the geocode cache untouched. -/
theorem c8_empty_query_short_circuit (q : String) (h : py_strip q = "")
    (from? to? : Option String) (geo : String) (size : Nat) (cache : GeoCache)
    (o : Oracles) :
    app_search q from? to? geo size cache o = (.ok [], cache, ⟨0, 0, 0⟩) := by
  simp [app_search, h]

/-- C8 witness: a whitespace-only query against a populated oracle. -/
theorem c8_empty_query_witness :
    app_search "   " (some "1987-03-01") none "usa" 10 [] (oracle_of [hit_oil_a] [hit_gold_b]) =
      (.ok [], [], ⟨0, 0, 0⟩) :=
  c8_empty_query_short_circuit "   " (by decide) (some "1987-03-01") none "usa" 10 []
    (oracle_of [hit_oil_a] [hit_gold_b])

/-- C10: tuple-shape guard.  For every argument that is not a 4-tuple,
`smart_hybrid_search` raises `ValueError` immediately: no geocoding, no
retrieval, no embedding call is issued and the geocode cache is unchanged.
The guard precedes everything else in the function body. -/
theorem c10_tuple_shape_guard (size : Nat) (cache : GeoCache) (o : Oracles) :
    smart_hybrid_search .malformed size cache o = (.error .valueError, cache, ⟨0, 0, 0⟩) :=
  rfl

/-- C1 (counterexample): the pipeline applies no min-max rescale.  For a
single lexical hit with raw score 200 (a non-empty candidate set whose
scores are all equal), the presented score is 200: it is outside `[0, 100]`,
and it is not 0 as the claim's all-scores-equal clause requires (nor 100 as
its maximum clause requires). -/
theorem c1_normalization_counterexample :
    search_ok (smart_hybrid_search (.tup4 "oil" none none "") 10 []
        (oracle_of [hit_big] [])) = true ∧
    search_scores (smart_hybrid_search (.tup4 "oil" none none "") 10 []
        (oracle_of [hit_big] [])) = [200] ∧
    ¬ (∀ s ∈ search_scores (smart_hybrid_search (.tup4 "oil" none none "") 10 []
        (oracle_of [hit_big] [])), 0 ≤ s ∧ s ≤ 100) ∧
    ¬ (∀ s ∈ search_scores (smart_hybrid_search (.tup4 "oil" none none "") 10 []
        (oracle_of [hit_big] [])), s = 0) := by
  have hcomb : combine_candidates [hit_big] [] none none = [("BIG", lex_candidate hit_big)] := by
    simp [combine_candidates, dset, hit_big]
  have hsc : score_candidate ((py_lower_split "oil").dedup) none trivial_gd trivial_tp
      (lex_candidate hit_big) = 200 := by
    have h0 : inter_count ((py_lower_split "oil").dedup) (py_lower_split "x") = 0 := by decide
    simp [score_candidate, lex_candidate, hit_big, h0]
  have hpres : present [(hit_big, 200)] 10 = [{ hit_big with score := 200 }] := by
    rw [present, show sort_desc [(hit_big, 200)] = [(hit_big, 200)] from rfl]
    norm_num [py_round3, round_half_even, hit_big]
  have hrun : (smart_hybrid_search (.tup4 "oil" none none "") 10 []
      (oracle_of [hit_big] [])).1 = .ok ⟨[{ hit_big with score := 200 }], none⟩ := by
    have hor : oracle_of [hit_big] [] =
        ⟨[hit_big], [], fun _ => .notFound, trivial_gd, trivial_tp⟩ := rfl
    have hhit : (lex_candidate hit_big).hit = hit_big := rfl
    simp [smart_hybrid_search, to_datetime, resolve_georef, hor, rerank, hcomb, hhit, hsc, hpres]
  have hscores : search_scores (smart_hybrid_search (.tup4 "oil" none none "") 10 []
      (oracle_of [hit_big] [])) = [200] := by
    simp only [search_scores]
    rw [hrun]
    simp [hit_big]
  refine ⟨?_, hscores, ?_, ?_⟩
  · simp only [search_ok]
    rw [hrun]
  · rw [hscores]
    intro hall
    have := (hall 200 (by simp)).2
    norm_num at this
  · rw [hscores]
    intro hall
    have := hall 200 (by simp)
    norm_num at this

/-- C1 (amended): the presentation step performs no normalization.  An empty
candidate set yields an empty hit list without error; the output keeps the
top `size` candidates; presented scores are exactly the final re-ranked
scores rounded to three decimals (so they inherit no `[0,100]` bound); and
the output is in descending order of presented score. -/
theorem c1_presented_scores_not_normalized :
    (∀ size : Nat, present [] size = []) ∧
    (∀ (ranked : List (Hit × ℚ)) (size : Nat),
        (present ranked size).length = min size ranked.length) ∧
    (∀ (ranked : List (Hit × ℚ)) (size : Nat),
        ((present ranked size).map Hit.score).Pairwise (fun a b => b ≤ a)) ∧
    (∀ (ranked : List (Hit × ℚ)) (size : Nat) (h : Hit), h ∈ present ranked size →
        ∃ p, p ∈ ranked ∧ h = { p.1 with score := py_round3 p.2 }) := by
  refine ⟨fun size => by simp [present, sort_desc], ?_, ?_, ?_⟩
  · intro ranked size
    simp [present, List.length_take, (sort_desc_perm ranked).length_eq]
  · intro ranked size
    have h1 : ((sort_desc ranked).take size).Pairwise (fun a b => b.2 ≤ a.2) :=
      (sorted_sort_desc ranked).sublist (List.take_sublist size _)
    have h2 : ((sort_desc ranked).take size).Pairwise
        (fun a b => py_round3 b.2 ≤ py_round3 a.2) :=
      h1.imp (fun hab => py_round3_mono hab)
    simp only [present, List.map_map]
    rw [List.pairwise_map]
    exact h2
  · intro ranked size h hmem
    simp only [present, List.mem_map] at hmem
    obtain ⟨p, hp, rfl⟩ := hmem
    exact ⟨p, (sort_desc_perm ranked).mem_iff.mp (List.mem_of_mem_take hp), rfl⟩

/-- C1 (amended) witness: the presentation facts applied to the concrete
one-element ranked list with final score 200. -/
theorem c1_presented_scores_witness :
    present [] 3 = ([] : List Hit) ∧
    (present [(hit_big, 200)] 10).length = min 10 [(hit_big, 200)].length ∧
    ∃ p, p ∈ [(hit_big, 200)] ∧
      ({ hit_big with score := (200 : ℚ) } : Hit) = { p.1 with score := py_round3 p.2 } := by
  refine ⟨c1_presented_scores_not_normalized.1 3,
    c1_presented_scores_not_normalized.2.1 [(hit_big, 200)] 10,
    c1_presented_scores_not_normalized.2.2.2 [(hit_big, 200)] 10 { hit_big with score := (200 : ℚ) } ?_⟩
  rw [show present [(hit_big, 200)] 10 = [{ hit_big with score := 200 }] from by
    rw [present, show sort_desc [(hit_big, 200)] = [(hit_big, 200)] from rfl]
    norm_num [py_round3, round_half_even, hit_big]]
  simp

/-- C3 (evaluating the code at the failing input): with
`start = "1987-03-01"` and no end date, the effective end is 1987-12-31 —
but the lexical filter's upper bound is computed as
`end.date() + timedelta(days=1) - timedelta(seconds=1)`, and Python `date`
arithmetic ignores the seconds of a timedelta, so the bound sent to the
index is 1988-01-01; under the inclusive range contract a document dated
1988-01-01 therefore PASSES the server-side lexical filter, while the
post-filter on semantic hits (which compares `doc_date > end.date()`, i.e.
against 1987-12-31) does exclude it, and the run on a semantic hit dated
1988-01-01 returns no results. -/
theorem c3_date_range_bound_off_by_one :
    to_datetime (some "1987-03-01") = .ok (some ⟨1987, 3, 1⟩) ∧
    search_lex_range (smart_hybrid_search (.tup4 "oil" (some "1987-03-01") none "") 10 []
        (oracle_of [] [hit_1988])) = some (some ⟨1987, 3, 1⟩, some ⟨1988, 1, 1⟩) ∧
    date_sub_td (date_add_td ⟨1987, 12, 31⟩ ⟨1, 0⟩) ⟨0, 1⟩ = ⟨1988, 1, 1⟩ ∧
    index_range_accepts (some ⟨1987, 3, 1⟩) (some ⟨1988, 1, 1⟩) ⟨1988, 1, 1⟩ = true ∧
    sem_keep (some ⟨1987, 3, 1⟩) (some ⟨1987, 12, 31⟩) hit_1988.source = false ∧
    search_ids (smart_hybrid_search (.tup4 "oil" (some "1987-03-01") none "") 10 []
        (oracle_of [] [hit_1988])) = [] := by
  refine ⟨by decide, ?_, by decide, by decide, by decide, ?_⟩
  · decide
  · decide
